import Mathlib

/-!
Verification of the room-scoped game-state synchronization engine of a
multiplayer Game of Life (TypeScript repository: an Express/socket.io server
under `api/`, a Phaser client under `app/`, shared zod schemas under
`shared/`).  The definitions below are a shallow embedding of the relevant
source functions; each definition's doc comment names the source location it
is translated from.
-/

namespace GoL

/-- `shared/schemas/gameState.ts` `CellStateSchema`: `isAlive` boolean, with
optional `ownerId` (a cuid string) and optional `color` (hex string).  The
schema places no cross-field constraint between `isAlive` and the two
optional fields. -/
structure CellState where
  isAlive : Bool
  ownerId : Option String := none
  color : Option String := none
deriving Repr, DecidableEq

/-- The all-dead cell value `{ isAlive: false, ownerId: undefined, color: undefined }`. -/
def deadCell : CellState := { isAlive := false }

/-- `shared/schemas/gameState.ts` `CellUpdateSchema`.  `isHeartbeat` is an
optional boolean (absent = `undefined`). -/
structure CellUpdate where
  row : Nat
  col : Nat
  state : CellState
  timestamp : Int
  userId : String
  roomId : String
  generation : Nat
  isHeartbeat : Option Bool := none
deriving Repr, DecidableEq

/-- JS truthiness of `update.isHeartbeat` (absent `undefined` is falsy). -/
def CellUpdate.heartbeat (u : CellUpdate) : Bool := u.isHeartbeat.getD false

/-- A grid is a 2-D array of cell states (`CellState[][]`). -/
abbrev Grid := List (List CellState)

/-- Read `grid[r][c]`; out-of-range reads return the dead cell (the embedded
theorems only exercise in-range indices, where this agrees with JS). -/
def getCell (g : Grid) (r c : Nat) : CellState := (g.getD r []).getD c deadCell

/-- Write `grid[r][c] = s` (in-range write; `List.set` is the identity out of
range, and all theorems below stay in range). -/
def setCell (g : Grid) (r c : Nat) (s : CellState) : Grid :=
  g.set r ((g.getD r []).set c s)

/-- `api/src/services/gameRoom.ts` `GameState` (member `lastUpdated`, an ISO
timestamp string in the source, is modelled as the integer clock value that
produced it). -/
structure GameState where
  grid : Grid
  generation : Nat
  lastUpdated : Int
deriving Repr, DecidableEq

/-- One row of `GameRoomService.mergeGrids`: cellwise, take `grid2`'s cell
when it differs from `grid1`'s, else keep `grid1`'s.  (The source loops over
`grid1`'s indices; callers always pass equal-shape grids.) -/
def mergeRow : List CellState → List CellState → List CellState
  | [], _ => []
  | as, [] => as
  | a :: as, b :: bs => (if b ≠ a then b else a) :: mergeRow as bs

/-- `api/src/services/gameRoom.ts` `GameRoomService.mergeGrids` (lines
102-114): start from a copy of `grid1` and overwrite every cell where
`grid2` differs. -/
def mergeGrids : Grid → Grid → Grid
  | [], _ => []
  | gs, [] => gs
  | r1 :: rs1, r2 :: rs2 => mergeRow r1 r2 :: mergeGrids rs1 rs2

/-- `api/src/services/gameRoom.ts` `GameRoomService.updateGameState` (lines
47-100), the successful pass of the optimistic-concurrency loop (each retry
re-runs this same pure computation): merge the incoming grid over the
current one unless resetting, and pick the next generation (0 on reset, the
caller-supplied value when present, else the current one). -/
def updateGameState (currentState : Option GameState) (grid : Grid)
    (reset : Bool) (generation : Option Nat) (now : Int) : GameState :=
  let mergedGrid :=
    match currentState with
    | some c => if reset then grid else mergeGrids c.grid grid
    | none => grid
  let nextGeneration :=
    if reset then 0
    else
      match generation with
      | some g => g
      | none =>
        match currentState with
        | some c => c.generation
        | none => 0
  { grid := mergedGrid, generation := nextGeneration, lastUpdated := now }

/-- Grid dimensions from `shared/constants.ts`:
`GRID_ROWS = floor(600 / 32) = 18`. -/
def GRID_ROWS : Nat := 18

/-- `GRID_COLS = floor(800 / 32) = 25`. -/
def GRID_COLS : Nat := 25

/-- The all-dead grid built by the reset path of the `game:update` handler
(`api/src/services/gameEvents.ts` lines 328-337) and by `startGame`. -/
def emptyGrid : Grid := List.replicate GRID_ROWS (List.replicate GRID_COLS deadCell)

/-! ### Update queue and batcher (`api/src/services/gameEvents.ts`) -/

/-- One entry of `pendingUpdates`: a batch of cell updates together with the
arrival timestamp `Date.now()` recorded by `queueUpdates` (line 165).  Note
this `timestamp` is the server-side arrival time of the batch, not any
update's own `timestamp` field. -/
structure PendingBatch where
  updates : List CellUpdate
  timestamp : Int
deriving Repr, DecidableEq

/-- `GameEventsService.queueUpdates` (lines 160-182), queue part: append the
batch, stamped with the arrival clock, to the room's pending list (the timer
bookkeeping has no effect on the data merged later). -/
def queueUpdates (pending : List PendingBatch) (updates : List CellUpdate)
    (now : Int) : List PendingBatch :=
  pending ++ [{ updates := updates, timestamp := now }]

/-- Insert a batch after every batch with a strictly smaller arrival
timestamp and after earlier-arrived batches with an equal one, so that
`sortBatches` is the stable ascending sort `Array.prototype.sort` performs
(stability is mandated by ES2019). -/
def insertByTimestamp (b : PendingBatch) :
    List PendingBatch → List PendingBatch
  | [] => [b]
  | a :: rest =>
    if a.timestamp < b.timestamp then a :: insertByTimestamp b rest
    else b :: a :: rest

/-- The sort at line 118 of `processUpdates`:
`updates.sort((a, b) => a.timestamp - b.timestamp)` — a stable ascending
sort of the pending *batches* by their arrival timestamps. -/
def sortBatches : List PendingBatch → List PendingBatch
  | [] => []
  | b :: rest => insertByTimestamp b (sortBatches rest)

/-- Body of the per-update loop of `processUpdates` (lines 128-140), acting
on the accumulator `(newGrid, latestGeneration)`: take the update's carried
generation when larger, and overwrite the target cell unless the update is a
heartbeat. -/
def applyUpdate (acc : Grid × Nat) (u : CellUpdate) : Grid × Nat :=
  let gen := if u.generation > acc.2 then u.generation else acc.2
  let grid := if u.heartbeat then acc.1 else setCell acc.1 u.row u.col u.state
  (grid, gen)

/-- Room metadata player status (`shared/schemas/player.ts` `PlayerStatus`). -/
inductive PlayerStatus where
  | active
  | inactive
deriving Repr, DecidableEq

/-- `shared/schemas/player.ts` `PlayerWithStatusSchema` (the room's stored
player records; `lastStatusChange`, an ISO string in the source, is modelled
as the integer clock value that produced it). -/
structure Player where
  id : String
  name : String
  color : String
  isHost : Bool
  status : PlayerStatus
  lastStatusChange : Int
deriving Repr, DecidableEq

/-- `shared/schemas/gameRoom.ts` `GameRoomMetadataSchema` (timestamps
modelled as integers). -/
structure GameRoom where
  id : String
  createdAt : Int
  lastActivity : Int
  players : List Player
  hasStarted : Bool
deriving Repr, DecidableEq

/-- `GameEventsService.processUpdates` (lines 109-158): bail out when there
are no pending batches, no room, or no persisted state; otherwise sort the
batches by arrival timestamp, fold every update of every batch over the
copied grid and the persisted generation, and hand the result to
`updateGameState` (non-reset, with the computed `latestGeneration`).
Returns `none` exactly when the early returns fire (nothing is written). -/
def processUpdates (gameRoom : Option GameRoom) (pending : List PendingBatch)
    (currentState : Option GameState) (now : Int) : Option GameState :=
  if pending = [] then none
  else
    match gameRoom with
    | none => none
    | some _ =>
      match currentState with
      | none => none
      | some st =>
        let sorted := sortBatches pending
        let res := sorted.foldl (fun acc b => b.updates.foldl applyUpdate acc)
          (st.grid, st.generation)
        some (updateGameState (some st) res.1 false (some res.2) now)

/-! ### Schema validation (`shared/utils/sanitize.ts`, zod schemas) -/

/-- Model of `isCuid` from the external `@paralleldrive/cuid2` dependency
(used by the zod schemas via `refine(isCuid)`): a lowercase-alphanumeric
string of length 2 to 32 starting with a letter. -/
def isCuid (s : String) : Bool :=
  decide (2 ≤ s.length) && decide (s.length ≤ 32) &&
  (match s.toList with
   | [] => false
   | c :: cs =>
     (decide ('a' ≤ c) && decide (c ≤ 'z')) &&
     cs.all (fun d =>
       (decide ('a' ≤ d) && decide (d ≤ 'z')) ||
       (decide ('0' ≤ d) && decide (d ≤ '9'))))

/-- One character of the color regex character class `[0-9A-Fa-f]`. -/
def isHexDigitChar (c : Char) : Bool :=
  (decide ('0' ≤ c) && decide (c ≤ '9')) ||
  (decide ('A' ≤ c) && decide (c ≤ 'F')) ||
  (decide ('a' ≤ c) && decide (c ≤ 'f'))

/-- The color regex of `CellStateSchema`: `^#[0-9A-Fa-f]{6}$`. -/
def isHexColorStr (s : String) : Bool :=
  s.length == 7 && s.toList.headD ' ' == '#' && (s.toList.drop 1).all isHexDigitChar

/-- `shared/utils/sanitize.ts` `MAX_PLAYER_NAME_LENGTH`. -/
def MAX_PLAYER_NAME_LENGTH : Nat := 20

/-- The character class JS `String.prototype.trim` and the regex class `\s`
match (ASCII whitespace plus the Unicode space separators). -/
def isJsWhitespace (c : Char) : Bool :=
  (decide (9 ≤ c.toNat) && decide (c.toNat ≤ 13)) || c.toNat == 32 ||
  c.toNat == 160 || c.toNat == 5760 ||
  (decide (8192 ≤ c.toNat) && decide (c.toNat ≤ 8202)) || c.toNat == 8232 ||
  c.toNat == 8233 || c.toNat == 8239 || c.toNat == 8287 || c.toNat == 12288 ||
  c.toNat == 65279

/-- `trim()` on a character list: drop whitespace from both ends. -/
def trimList (l : List Char) : List Char :=
  ((l.dropWhile isJsWhitespace).reverse.dropWhile isJsWhitespace).reverse

/-- Scan the characters after a `<` for the first `>`: the remainder after
the regex match `<[^>]*>`, or `none` when no `>` follows (no match). -/
def dropTag : List Char → Option (List Char)
  | [] => none
  | c :: rest => if c = '>' then some rest else dropTag rest

/-- `replace(/<[^>]*>/g, "")`: remove every span from a `<` through the
first following `>`.  Once a `<` has no `>` anywhere after it, no later
position can match either, so the remainder is kept verbatim.  The fuel
argument (the list length bounds the number of steps) keeps the recursion
structural. -/
def stripTagsAux : Nat → List Char → List Char
  | 0, l => l
  | _ + 1, [] => []
  | fuel + 1, c :: rest =>
    if c = '<' then
      match dropTag rest with
      | some rest2 => stripTagsAux fuel rest2
      | none => c :: rest
    else c :: stripTagsAux fuel rest

/-- `replace(/<[^>]*>/g, "")` over a whole list. -/
def stripTags (l : List Char) : List Char := stripTagsAux l.length l

/-- The regex class `[\w\s-]` (the characters `replace(/[^\w\s-]/g, "")`
keeps): word characters, whitespace, hyphen. -/
def isWordSpaceOrHyphen (c : Char) : Bool :=
  (decide ('a' ≤ c) && decide (c ≤ 'z')) ||
  (decide ('A' ≤ c) && decide (c ≤ 'Z')) ||
  (decide ('0' ≤ c) && decide (c ≤ '9')) ||
  c == '_' || c == '-' || isJsWhitespace c

/-- `shared/utils/sanitize.ts` `sanitizePlayerName`: trim, strip HTML tags,
drop special characters, cut to the maximum length, trim again (an empty —
falsy — input short-circuits to `""`).  `slice(0, 20)` counts UTF-16 units;
the model counts code points, which agrees on all BMP input. -/
def sanitizePlayerName (name : String) : String :=
  if name = "" then ""
  else
    String.mk (trimList
      (((stripTags (trimList name.toList)).filter isWordSpaceOrHyphen).take
        MAX_PLAYER_NAME_LENGTH))

/-- `shared/utils/sanitize.ts` `isValidPlayerName`: the sanitized form is
non-empty and within the length bound. -/
def isValidPlayerName (name : String) : Bool :=
  let sanitized := sanitizePlayerName name
  decide (0 < sanitized.length) &&
    decide (sanitized.length ≤ MAX_PLAYER_NAME_LENGTH)

/-- The name check of `PlayerSchema`: `transform(sanitizePlayerName)`
followed by `refine(isValidPlayerName)` — the refinement sees the already
sanitized name (and re-sanitizes it internally). -/
def playerNameSchemaOk (name : String) : Bool :=
  isValidPlayerName (sanitizePlayerName name)

/-- `PlayerWithStatusSchema` validity for a stored player record: cuid id,
valid name, hex color (the status enum, host flag and timestamp fields are
always valid in the model). -/
def playerSchemaValid (p : Player) : Bool :=
  isCuid p.id && playerNameSchemaOk p.name && isHexColorStr p.color

/-- `GameRoomMetadataSchema` validity: cuid room id and every player record
valid (the timestamp strings and flags are always valid in the model). -/
def gameRoomSchemaValid (room : GameRoom) : Bool :=
  isCuid room.id && room.players.all playerSchemaValid

/-! ### Room service (`api/src/services/gameRoom.ts`) -/

/-- `api/src/config/config.ts` `playerLimit` (maximum players per room). -/
def configPlayerLimit : Nat := 8

/-- `api/src/config/config.ts` `playerColor` (the host's default color). -/
def configPlayerColor : String := "#FF0000"

/-- `GameRoomService.saveGameRoom` (lines 179-189), write half: refresh
`lastActivity` and persist the record.  The other half of the source
function — `GameRoomMetadataSchema.parse(gameRoom)`, which throws a zod
error before anything is written when the record is invalid — is modelled
by the explicit `gameRoomSchemaValid` gate at the call sites that can
receive invalid data (`joinGameRoom`).  `removePlayerFromRoom` reaches the
write with a subset of an already-stored, previously parsed record (player
removal and the host-flag flip cannot invalidate any schema field), so its
parse never throws and the write half alone is faithful there. -/
def saveGameRoom (gameRoom : GameRoom) (now : Int) : GameRoom :=
  { gameRoom with lastActivity := now }

/-- The in-place mutation of the first player found with `id = playerId` in
`joinGameRoom` (lines 150-154): refresh name, flip status to active, stamp
the status change. -/
def updateFirstById (playerId playerName : String) (now : Int) :
    List Player → List Player
  | [] => []
  | p :: rest =>
    if p.id = playerId then
      { p with name := playerName, status := PlayerStatus.active,
               lastStatusChange := now } :: rest
    else p :: updateFirstById playerId playerName now rest

/-- `GameRoomService.joinGameRoom` (lines 137-177).  The freshly drawn
color for a new player (`getRandomUnusedColor`) is passed in as `newColor`
since the source draws it randomly.  Both saving paths re-validate the
updated record (`saveGameRoom`'s `GameRoomMetadataSchema.parse`): a name
that sanitizes to empty or a non-cuid id makes the source throw a zod error
(whose message lists the issues; the model uses a fixed string, and the
claims only ever existentially quantify the message).  The no-change member
path returns without saving and is therefore never validated.  Error
strings of the explicit throws are the source's. -/
def joinGameRoom (room : Option GameRoom) (playerName playerId : String)
    (newColor : String) (now : Int) (playerLimit : Nat) :
    Except String GameRoom :=
  match room with
  | none => Except.error "Game room not found"
  | some gameRoom =>
    match gameRoom.players.find? (fun p => p.id == playerId) with
    | some existingPlayer =>
      if existingPlayer.name ≠ playerName ∨
          existingPlayer.status ≠ PlayerStatus.active then
        let updated := { gameRoom with
          players := updateFirstById playerId playerName now gameRoom.players }
        if gameRoomSchemaValid updated then Except.ok (saveGameRoom updated now)
        else Except.error "Invalid game room data"
      else Except.ok gameRoom
    | none =>
      if gameRoom.players.length ≥ playerLimit then
        Except.error "Game room is full"
      else
        let updated := { gameRoom with
          players := gameRoom.players ++
            [{ id := playerId, name := playerName, color := newColor,
               isHost := false, status := PlayerStatus.active,
               lastStatusChange := now }] }
        if gameRoomSchemaValid updated then Except.ok (saveGameRoom updated now)
        else Except.error "Invalid game room data"

/-- The `findIndex` + `splice` pair of `removePlayerFromRoom` (lines
197-203): remove the first player with the given id, returning it alongside
the remaining list (`(none, l)` when absent). -/
def removeFirstById (playerId : String) :
    List Player → Option Player × List Player
  | [] => (none, [])
  | p :: rest =>
    if p.id = playerId then (some p, rest)
    else
      let r := removeFirstById playerId rest
      (r.1, p :: r.2)

/-- `gameRoom.players[0].isHost = true` (line 206). -/
def setHeadHost : List Player → List Player
  | [] => []
  | p :: rest => { p with isHost := true } :: rest

/-- `GameRoomService.removePlayerFromRoom` (lines 191-210): missing room is
an error; an absent player id returns the room unchanged; otherwise splice
the player out and, when the removed player was host and others remain, make
the first remaining player host. -/
def removePlayerFromRoom (room : Option GameRoom) (playerId : String)
    (now : Int) : Except String GameRoom :=
  match room with
  | none => Except.error "Game room not found"
  | some gameRoom =>
    match removeFirstById playerId gameRoom.players with
    | (none, _) => Except.ok gameRoom
    | (some removed, rest) =>
      let players :=
        if removed.isHost ∧ rest ≠ [] then setHeadHost rest else rest
      Except.ok (saveGameRoom { gameRoom with players := players } now)

/-- `GameRoomService.createGameRoom` (lines 261-287): a fresh room whose
only player is the host, colored with the configured default. -/
def createGameRoom (gameRoomId hostName hostId : String) (now : Int) :
    GameRoom :=
  { id := gameRoomId, createdAt := now, lastActivity := now,
    players := [{ id := hostId, name := hostName, color := configPlayerColor,
                  isHost := true, status := PlayerStatus.active,
                  lastStatusChange := now }],
    hasStarted := false }

/-! ### Gateway `game:update` handler and the persisted-state step machine -/

/-- Observable outcome of the `game:update` socket handler. -/
inductive UpdateAction where
  | ignored
  | resetApplied (newState : GameState)
  | enqueued (pending : List PendingBatch)
deriving Repr, DecidableEq

/-- The `game:update` handler (`api/src/services/gameEvents.ts` lines
319-349): silently return when the room or the caller's player record is
missing; on `reset`, write the all-dead grid at generation 0 immediately;
otherwise queue the updates for batch processing.  The handler performs no
check of the caller's `status`. -/
def handleGameUpdate (room : Option GameRoom) (userId : String)
    (updates : List CellUpdate) (reset : Bool) (st : Option GameState)
    (pending : List PendingBatch) (now : Int) : UpdateAction :=
  match room with
  | none => UpdateAction.ignored
  | some gameRoom =>
    match gameRoom.players.find? (fun p => p.id == userId) with
    | none => UpdateAction.ignored
    | some _ =>
      if reset then
        UpdateAction.resetApplied (updateGameState st emptyGrid true (some 0) now)
      else UpdateAction.enqueued (queueUpdates pending updates now)

/-- An event touching a room's persisted game state: a debounce flush
(`processUpdates`) or the reset path of the `game:update` handler. -/
inductive MergeEvent where
  | flush (room : Option GameRoom) (pending : List PendingBatch) (now : Int)
  | reset (now : Int)

/-- Transition of the persisted state under one event.  A flush whose early
returns fire writes nothing. -/
def stepState (st : Option GameState) : MergeEvent → Option GameState
  | MergeEvent.flush room pending now =>
    match processUpdates room pending st now with
    | some st' => some st'
    | none => st
  | MergeEvent.reset now =>
    some (updateGameState st emptyGrid true (some 0) now)

/-- Generation of the persisted state (0 when nothing is persisted yet). -/
def genOf : Option GameState → Nat
  | some s => s.generation
  | none => 0

/-! ### Host-side simulation tick (`app/src/scenes/Game.ts`) -/

/-- `app/src/constants.ts` `NEIGHBOR_OFFSETS` (the 8 Moore neighbours, in
declaration order). -/
def NEIGHBOR_OFFSETS : List (Int × Int) :=
  [(-1, -1), (-1, 0), (-1, 1), (0, -1), (0, 1), (1, -1), (1, 0), (1, 1)]

/-- The bounds check `0 ≤ r < GRID_ROWS && 0 ≤ c < GRID_COLS` used by
`countLiveNeighbors` and `getAliveNeighborColors`. -/
def inBounds (r c : Int) : Bool :=
  decide (0 ≤ r) && decide (r < (GRID_ROWS : Int)) &&
  decide (0 ≤ c) && decide (c < (GRID_COLS : Int))

/-- `Game.countLiveNeighbors` (lines 564-580). -/
def countLiveNeighbors (g : Grid) (row col : Nat) : Nat :=
  NEIGHBOR_OFFSETS.countP (fun o =>
    let nr := (row : Int) + o.1
    let nc := (col : Int) + o.2
    inBounds nr nc && (getCell g nr.toNat nc.toNat).isAlive)

/-- `Game.getAliveNeighborColors` (lines 483-509), colors component: for
each in-bounds live neighbour carrying an `ownerId` whose player is present
in the room metadata, collect that player's assigned color (the `owners`
list the source also returns is unused by the caller).  The source recovers
`row`/`col` from the cell object's identity; here they are passed directly. -/
def getAliveNeighborColors (players : List Player) (g : Grid) (row col : Nat) :
    List String :=
  NEIGHBOR_OFFSETS.filterMap (fun o =>
    let nr := (row : Int) + o.1
    let nc := (col : Int) + o.2
    if inBounds nr nc then
      let neighbor := getCell g nr.toNat nc.toNat
      if neighbor.isAlive then
        match neighbor.ownerId with
        | some oid => (players.find? (fun p => p.id == oid)).map (fun p => p.color)
        | none => none
      else none
    else none)

/-- Numeric value of one hex digit (`parseInt` base 16 accepts either case). -/
def hexDigitVal (c : Char) : Nat :=
  if decide ('0' ≤ c) && decide (c ≤ '9') then c.toNat - '0'.toNat
  else if decide ('a' ≤ c) && decide (c ≤ 'f') then c.toNat - 'a'.toNat + 10
  else if decide ('A' ≤ c) && decide (c ≤ 'F') then c.toNat - 'A'.toNat + 10
  else 0

/-- `parseInt(color.slice(i, i+2), 16)` for a two-character slice. -/
def hexPairAt (s : String) (i : Nat) : Nat :=
  16 * hexDigitVal (s.toList.getD i '0') + hexDigitVal (s.toList.getD (i + 1) '0')

/-- The guard `color.startsWith("#") && color.length === 7` of
`getAverageColor`'s accumulation loop. -/
def isWellFormedColor (c : String) : Bool :=
  c.toList.headD ' ' == '#' && c.length == 7

/-- JS `toUpperCase` restricted to ASCII (every color handled here is an
ASCII hex string). -/
def upperChar (c : Char) : Char :=
  if decide ('a' ≤ c) && decide (c ≤ 'z') then Char.ofNat (c.toNat - 32) else c

/-- Uppercase an ASCII string. -/
def toUpperStr (s : String) : String := String.mk (s.toList.map upperChar)

/-- Uppercase hex digit. -/
def hexDigitUpper (n : Nat) : Char :=
  if n < 10 then Char.ofNat (48 + n) else Char.ofNat (65 + (n - 10))

/-- `n.toString(16).padStart(2, "0").toUpperCase()` for byte values
(`n ≤ 255`), as used to format each averaged component. -/
def hexByteUpper (n : Nat) : String :=
  String.mk [hexDigitUpper (n / 16 % 16), hexDigitUpper (n % 16)]

/-- `Game.getAverageColor` (lines 441-481): with no neighbour colors, the
dead color `#111111` and no owner; otherwise sum each RGB component over the
well-formed colors, divide by the *total* number of collected colors
(`Math.floor` of a non-negative ratio is `Nat` division), format as
uppercase `#RRGGBB`, and look up a player whose uppercased assigned color
equals that string. -/
def getAverageColor (players : List Player) (neighborColors : List String) :
    String × Option String :=
  if neighborColors = [] then ("#111111", none)
  else
    let totalR := (neighborColors.map
      (fun c => if isWellFormedColor c then hexPairAt c 1 else 0)).sum
    let totalG := (neighborColors.map
      (fun c => if isWellFormedColor c then hexPairAt c 3 else 0)).sum
    let totalB := (neighborColors.map
      (fun c => if isWellFormedColor c then hexPairAt c 5 else 0)).sum
    let n := neighborColors.length
    let hexColor :=
      "#" ++ hexByteUpper (totalR / n) ++ hexByteUpper (totalG / n) ++
        hexByteUpper (totalB / n)
    (hexColor,
      (players.find? (fun p => toUpperStr p.color == hexColor)).map (fun p => p.id))

/-- Result record of `Game.applyCellRules`. -/
structure RuleResult where
  willLive : Bool
  newOwnerId : Option String := none
  color : Option String := none
deriving Repr, DecidableEq

/-- `Game.applyCellRules` (lines 511-529): survival with 2 or 3 neighbours
keeps owner and color; reproduction on a dead cell with exactly 3 neighbours
takes the averaged neighbour color and its matching owner; everything else
dies.  The neighbour count is computed at the cell's own coordinates, as the
caller does. -/
def applyCellRules (players : List Player) (g : Grid) (row col : Nat) :
    RuleResult :=
  let cell := getCell g row col
  let neighbors := countLiveNeighbors g row col
  if cell.isAlive ∧ (neighbors = 2 ∨ neighbors = 3) then
    { willLive := true, newOwnerId := cell.ownerId, color := cell.color }
  else if cell.isAlive = false ∧ neighbors = 3 then
    let colors := getAliveNeighborColors players g row col
    let res := getAverageColor players colors
    { willLive := true, newOwnerId := res.2, color := some res.1 }
  else { willLive := false }

/-- The cell written into `nextState[row][col]` by `Game.nextGeneration`
(lines 601-605): `ownerId` only when the cell will live; `color` as the
rules returned it. -/
def tickCellState (players : List Player) (g : Grid) (row col : Nat) :
    CellState :=
  let res := applyCellRules players g row col
  { isAlive := res.willLive,
    ownerId := if res.willLive then res.newOwnerId else none,
    color := res.color }

/-- What one host tick produces: the new local grid, the diff updates, the
batch passed to `socketService.updateGameState`, and the new generation. -/
structure TickResult where
  nextGrid : Grid
  changed : List CellUpdate
  submitted : List CellUpdate
  newGeneration : Nat
deriving Repr, DecidableEq

/-- `Game.nextGeneration` (lines 582-664): bump the generation, collect an
update for every cell whose `(isAlive, ownerId, color)` triple changes
(state recorded ungated, exactly as pushed at lines 609-621), build the new
grid, and submit the diff plus the trailing `heartbeat` update — whose
`isHeartbeat` flag is `updates.length === 0`, and which is appended to the
diff batch even when cells changed. -/
def nextGeneration (players : List Player) (g : Grid) (generation : Nat)
    (userId roomId : String) (now : Int) : TickResult :=
  let nextGen := generation + 1
  let changed := (List.range GRID_ROWS).flatMap (fun row =>
    (List.range GRID_COLS).filterMap (fun col =>
      let cell := getCell g row col
      let res := applyCellRules players g row col
      if cell.isAlive ≠ res.willLive ∨ cell.ownerId ≠ res.newOwnerId ∨
          cell.color ≠ res.color then
        some { row := row, col := col,
               state := { isAlive := res.willLive, ownerId := res.newOwnerId,
                          color := res.color },
               timestamp := now, userId := userId, roomId := roomId,
               generation := nextGen }
      else none))
  let nextGrid := (List.range GRID_ROWS).map (fun row =>
    (List.range GRID_COLS).map (fun col => tickCellState players g row col))
  let heartbeat : CellUpdate :=
    { row := 0, col := 0, state := deadCell, timestamp := now,
      userId := userId, roomId := roomId, generation := nextGen,
      isHeartbeat := some changed.isEmpty }
  let submitted := if changed.isEmpty then [heartbeat] else changed ++ [heartbeat]
  { nextGrid := nextGrid, changed := changed, submitted := submitted,
    newGeneration := nextGen }

/-! ### Schema validity and the dead-cell invariant -/

/-- `CellStateSchema` validity: the optional `ownerId` must be a cuid and
the optional `color` a hex color; no constraint ties them to `isAlive`. -/
def cellStateSchemaValid (c : CellState) : Bool :=
  c.ownerId.all isCuid && c.color.all isHexColorStr

/-- `CellUpdateSchema` validity (row/col non-negativity is inherent to
`Nat`; the timestamp is an arbitrary number). -/
def cellUpdateSchemaValid (u : CellUpdate) : Bool :=
  cellStateSchemaValid u.state && isCuid u.userId && isCuid u.roomId

/-- The spec's cell-state invariant: `ownerId`/`color` are present only if
`isAlive = true`. -/
def cellInv (c : CellState) : Bool :=
  c.isAlive || (c.ownerId == none && c.color == none)

/-- The invariant over a whole grid. -/
def gridInv (g : Grid) : Bool := g.all (fun row => row.all cellInv)

/-! ### Host-count machinery for the room lifecycle -/

/-- Number of players flagged as host. -/
def hostCount (l : List Player) : Nat := l.countP (fun p => p.isHost)

/-- A room mutation relevant to the host-uniqueness claim: a `game:join`
(through `joinGameRoom`; the freshly drawn color is recorded in the op) or a
removal (explicit `game:leave` and the disconnect-timeout expiry both call
`removePlayerFromRoom`). -/
inductive RoomOp where
  | join (playerName playerId newColor : String) (now : Int) (playerLimit : Nat)
  | leave (playerId : String) (now : Int)

/-- Apply one room mutation; a rejected operation leaves the stored room
unchanged (the handler only emits an error to the caller). -/
def applyOp (room : GameRoom) : RoomOp → GameRoom
  | RoomOp.join n pid c now lim =>
    match joinGameRoom (some room) n pid c now lim with
    | Except.ok r => r
    | Except.error _ => room
  | RoomOp.leave pid now =>
    match removePlayerFromRoom (some room) pid now with
    | Except.ok r => r
    | Except.error _ => room

/-- Fold a sequence of room mutations over an initial room. -/
def runOps (init : GameRoom) (ops : List RoomOp) : GameRoom :=
  ops.foldl applyOp init


/-- The grid/generation fold of `processUpdates`, flattened over the sorted
batches (helper used by the lemmas below). -/
def flushFold (pending : List PendingBatch) (st : GameState) : Grid × Nat :=
  ((sortBatches pending).flatMap (fun b => b.updates)).foldl applyUpdate
    (st.grid, st.generation)

/-! ### Spec-side comparison definition and concrete instances -/

/-- The spec wording of the reproduction color (to compare against the
source's `getAverageColor`): each RGB component summed over the collected
neighbour colors, divided by the neighbour-color count and rounded down,
formatted as uppercase `#RRGGBB`. -/
def specAverageHex (colors : List String) : String :=
  "#" ++ hexByteUpper ((colors.map (fun c => hexPairAt c 1)).sum / colors.length)
      ++ hexByteUpper ((colors.map (fun c => hexPairAt c 3)).sum / colors.length)
      ++ hexByteUpper ((colors.map (fun c => hexPairAt c 5)).sum / colors.length)

/-- Concrete player: the red host. -/
def playerA : Player :=
  { id := "alicealice", name := "Alice", color := "#FF0000", isHost := true,
    status := PlayerStatus.active, lastStatusChange := 0 }

/-- Concrete player: the green guest. -/
def playerB : Player :=
  { id := "bobbobbob", name := "Bob", color := "#00FF00", isHost := false,
    status := PlayerStatus.active, lastStatusChange := 0 }

/-- A started two-player room. -/
def room1 : GameRoom :=
  { id := "roomroomroom", createdAt := 0, lastActivity := 0,
    players := [playerA, playerB], hasStarted := true }

/-- A live cell owned by the red host. -/
def cellA : CellState :=
  { isAlive := true, ownerId := some "alicealice", color := some "#FF0000" }

/-- A live cell owned by the green guest. -/
def cellB : CellState :=
  { isAlive := true, ownerId := some "bobbobbob", color := some "#00FF00" }

/-- The persisted state at generation 0 over the all-dead grid. -/
def st0 : GameState := { grid := emptyGrid, generation := 0, lastUpdated := 0 }

/-- Update with origination timestamp 2 turning cell (0,0) alive. -/
def u_t2 : CellUpdate :=
  { row := 0, col := 0, state := cellA, timestamp := 2,
    userId := "alicealice", roomId := "roomroomroom", generation := 1 }

/-- Update with origination timestamp 1 turning cell (0,0) dead. -/
def u_t1 : CellUpdate :=
  { row := 0, col := 0, state := deadCell, timestamp := 1,
    userId := "bobbobbob", roomId := "roomroomroom", generation := 1 }

/-- The pending list after enqueueing t2's batch first (arrival clock 100)
and t1's batch second (arrival clock 101), inside one debounce window. -/
def pendingC1 : List PendingBatch := queueUpdates (queueUpdates [] [u_t2] 100) [u_t1] 101

/-- The state `processUpdates` persists for `pendingC1` over `st0`. -/
def resC2 : GameState := { grid := emptyGrid, generation := 1, lastUpdated := 200 }

/-- A heartbeat-flagged update carrying generation 7. -/
def hbUpdate : CellUpdate :=
  { row := 0, col := 0, state := deadCell, timestamp := 5,
    userId := "alicealice", roomId := "roomroomroom", generation := 7,
    isHeartbeat := some true }

/-- A pending list holding one heartbeat-only batch. -/
def pendingHB : List PendingBatch := queueUpdates [] [hbUpdate] 10

/-- The state the flush of `pendingHB` persists over `st0`. -/
def resHB : GameState := { grid := emptyGrid, generation := 7, lastUpdated := 30 }

/-- A schema-valid update writing a dead state that still carries an owner
and a color (the schema has no cross-field constraint). -/
def badUpdate : CellUpdate :=
  { row := 2, col := 3,
    state := { isAlive := false, ownerId := some "alicealice",
               color := some "#FF0000" },
    timestamp := 1, userId := "alicealice", roomId := "roomroomroom",
    generation := 1 }

/-- The reproduction-scenario grid: (0,1) red-owned, (1,0) and (1,2)
green-owned, everything else dead. -/
def gridC8 : Grid := setCell (setCell (setCell emptyGrid 0 1 cellA) 1 0 cellB) 1 2 cellB

/-- Tick-scenario grid: live red-owned cells at (0,0), (0,1) and (1,0);
cell (0,0) survives the tick with 2 live neighbours while (1,1) is born. -/
def gridC9 : Grid := setCell (setCell (setCell emptyGrid 0 0 cellA) 0 1 cellA) 1 0 cellA

/-- Server-persisted state matching `gridC9` at generation 4. -/
def stC9 : GameState := { grid := gridC9, generation := 4, lastUpdated := 0 }

/-- The tick the host computes on `gridC9`. -/
def tickC9 : TickResult :=
  nextGeneration [playerA, playerB] gridC9 4 "alicealice" "roomroomroom" 50

/-- The pending list holding one ordinary (invariant-respecting) update. -/
def pendingOK : List PendingBatch := queueUpdates [] [u_t2] 10

/-- The state the flush of `pendingOK` persists over `st0`. -/
def resOK : GameState :=
  { grid := setCell emptyGrid 0 0 cellA, generation := 1, lastUpdated := 20 }

/-- The guest after a disconnect flipped the status to inactive. -/
def playerBInactive : Player := { playerB with status := PlayerStatus.inactive }

/-- A room whose guest is inactive (disconnected, within the grace window). -/
def roomInactive : GameRoom :=
  { id := "roomroomroom", createdAt := 0, lastActivity := 0,
    players := [playerA, playerBInactive],
    hasStarted := true }

/-- A started one-player room (the host alone). -/
def roomStarted : GameRoom :=
  { id := "roomroomroom", createdAt := 0, lastActivity := 0,
    players := [playerA], hasStarted := true }

/-- The room as created by `createGameRoom` for the host Alice. -/
def roomC7 : GameRoom := createGameRoom "roomroomroom" "Alice" "alicealice" 0

/-- Host leaves (emptying the room), then Bob joins the empty room. -/
def opsC7 : List RoomOp :=
  [RoomOp.leave "alicealice" 1, RoomOp.join "Bob" "bobbobbob" "#00FF00" 2 8]

/-! ### Helper lemmas -/

theorem foldl_batches_eq_flat (bs : List PendingBatch) (acc : Grid × Nat) :
    bs.foldl (fun a b => b.updates.foldl applyUpdate a) acc
      = (bs.flatMap (fun b => b.updates)).foldl applyUpdate acc := by
  induction bs generalizing acc with
  | nil => rfl
  | cons b rest ih =>
    simp only [List.foldl_cons, List.flatMap_cons, List.foldl_append]
    exact ih _

theorem processUpdates_eq_some (room : GameRoom) (pending : List PendingBatch)
    (st : GameState) (now : Int) (hne : ¬pending = []) :
    processUpdates (some room) pending (some st) now =
      some (updateGameState (some st) (flushFold pending st).1 false
        (some (flushFold pending st).2) now) := by
  simp only [processUpdates, hne, if_false, flushFold, foldl_batches_eq_flat]

theorem applyUpdate_snd_ge (acc : Grid × Nat) (u : CellUpdate) :
    acc.2 ≤ (applyUpdate acc u).2 := by
  simp only [applyUpdate]
  split <;> omega

theorem applyUpdate_snd_ge_gen (acc : Grid × Nat) (u : CellUpdate) :
    u.generation ≤ (applyUpdate acc u).2 := by
  simp only [applyUpdate]
  split <;> omega

theorem le_foldl_applyUpdate (l : List CellUpdate) (acc : Grid × Nat) :
    acc.2 ≤ (l.foldl applyUpdate acc).2 := by
  induction l generalizing acc with
  | nil => exact le_refl _
  | cons u rest ih =>
    exact le_trans (applyUpdate_snd_ge acc u) (ih (applyUpdate acc u))

theorem mem_le_foldl_applyUpdate (l : List CellUpdate) (acc : Grid × Nat)
    (u : CellUpdate) (hu : u ∈ l) : u.generation ≤ (l.foldl applyUpdate acc).2 := by
  induction l generalizing acc with
  | nil => cases hu
  | cons v rest ih =>
    rcases List.mem_cons.mp hu with h | h
    · subst h
      exact le_trans (applyUpdate_snd_ge_gen acc u)
        (le_foldl_applyUpdate rest (applyUpdate acc u))
    · exact ih (applyUpdate acc v) h

theorem foldl_applyUpdate_gen_cases (l : List CellUpdate) (acc : Grid × Nat) :
    (l.foldl applyUpdate acc).2 = acc.2 ∨
      ∃ u ∈ l, (l.foldl applyUpdate acc).2 = u.generation := by
  induction l generalizing acc with
  | nil => exact Or.inl rfl
  | cons v rest ih =>
    rcases ih (applyUpdate acc v) with h | ⟨u, hu, h⟩
    · simp only [List.foldl_cons] at *
      rw [h]
      simp only [applyUpdate]
      split
      · exact Or.inr ⟨v, List.mem_cons_self v rest, rfl⟩
      · exact Or.inl rfl
    · exact Or.inr ⟨u, List.mem_cons_of_mem v hu, h⟩

theorem foldl_applyUpdate_grid_heartbeats (l : List CellUpdate) (acc : Grid × Nat)
    (h : ∀ u ∈ l, u.heartbeat = true) : (l.foldl applyUpdate acc).1 = acc.1 := by
  induction l generalizing acc with
  | nil => rfl
  | cons u rest ih =>
    have hu := h u (List.mem_cons_self u rest)
    simp only [List.foldl_cons]
    rw [ih (applyUpdate acc u) (fun v hv => h v (List.mem_cons_of_mem u hv))]
    simp [applyUpdate, hu]

theorem insertByTimestamp_perm (b : PendingBatch) (l : List PendingBatch) :
    (insertByTimestamp b l).Perm (b :: l) := by
  induction l with
  | nil => exact List.Perm.refl _
  | cons a rest ih =>
    simp only [insertByTimestamp]
    split
    · exact (ih.cons a).trans (List.Perm.swap b a rest)
    · exact List.Perm.refl _

theorem sortBatches_perm (l : List PendingBatch) : (sortBatches l).Perm l := by
  induction l with
  | nil => exact List.Perm.refl _
  | cons b rest ih =>
    exact (insertByTimestamp_perm b (sortBatches rest)).trans (ih.cons b)

theorem mem_sortBatches (b : PendingBatch) (l : List PendingBatch) :
    b ∈ sortBatches l ↔ b ∈ l := (sortBatches_perm l).mem_iff

theorem mergeRow_self (r : List CellState) : mergeRow r r = r := by
  induction r with
  | nil => rfl
  | cons a as ih => simp [mergeRow, ih]

theorem mergeGrids_self (g : Grid) : mergeGrids g g = g := by
  induction g with
  | nil => rfl
  | cons r rs ih => simp [mergeGrids, mergeRow_self, ih]

theorem mergeRow_eq_right (r1 r2 : List CellState) (h : r1.length = r2.length) :
    mergeRow r1 r2 = r2 := by
  induction r1 generalizing r2 with
  | nil =>
    cases r2 with
    | nil => rfl
    | cons b bs => simp at h
  | cons a as ih =>
    cases r2 with
    | nil => simp at h
    | cons b bs =>
      simp only [mergeRow]
      have hb : (if b ≠ a then b else a) = b := by
        by_cases hba : b = a
        · simp [hba]
        · simp [hba]
      rw [hb, ih bs (by simpa using h)]

theorem mergeGrids_eq_right (g1 g2 : Grid)
    (h : List.Forall₂ (fun r1 r2 => r1.length = r2.length) g1 g2) :
    mergeGrids g1 g2 = g2 := by
  induction h with
  | nil => rfl
  | cons hr _ ih =>
    simp only [mergeGrids]
    rw [mergeRow_eq_right _ _ hr, ih]

theorem gridInv_setCell (g : Grid) (r c : Nat) (s : CellState)
    (hg : gridInv g = true) (hs : cellInv s = true) :
    gridInv (setCell g r c s) = true := by
  rw [gridInv, List.all_eq_true] at *
  intro row hrow
  rw [List.all_eq_true]
  intro x hx
  rcases List.mem_or_eq_of_mem_set hrow with h | h
  · exact List.all_eq_true.mp (hg row h) x hx
  · subst h
    rcases List.mem_or_eq_of_mem_set hx with h2 | h2
    · by_cases hr : r < g.length
      · have hmem : g.getD r [] ∈ g := by
          rw [List.getD_eq_getElem g [] hr]
          exact List.getElem_mem hr
        exact List.all_eq_true.mp (hg _ hmem) x h2
      · rw [List.getD_eq_default g [] (le_of_not_lt hr)] at h2
        cases h2
    · subst h2
      exact hs

theorem rowInv_mergeRow (r1 r2 : List CellState)
    (h1 : r1.all cellInv = true) (h2 : r2.all cellInv = true) :
    (mergeRow r1 r2).all cellInv = true := by
  induction r1 generalizing r2 with
  | nil =>
    cases r2 <;> simp [mergeRow]
  | cons a as ih =>
    cases r2 with
    | nil => exact h1
    | cons b bs =>
      rw [List.all_eq_true] at h1 h2
      simp only [mergeRow, List.all_cons, Bool.and_eq_true]
      constructor
      · split
        · exact h2 b (List.mem_cons_self b bs)
        · exact h1 a (List.mem_cons_self a as)
      · exact ih bs (List.all_eq_true.mpr fun x hx => h1 x (List.mem_cons_of_mem a hx))
          (List.all_eq_true.mpr fun x hx => h2 x (List.mem_cons_of_mem b hx))

theorem gridInv_mergeGrids (g1 g2 : Grid)
    (h1 : gridInv g1 = true) (h2 : gridInv g2 = true) :
    gridInv (mergeGrids g1 g2) = true := by
  induction g1 generalizing g2 with
  | nil => cases g2 <;> simp [mergeGrids, gridInv]
  | cons r1 rs1 ih =>
    cases g2 with
    | nil => exact h1
    | cons r2 rs2 =>
      rw [gridInv, List.all_eq_true] at h1 h2
      simp only [mergeGrids, gridInv, List.all_cons, Bool.and_eq_true]
      constructor
      · exact rowInv_mergeRow r1 r2 (h1 r1 (List.mem_cons_self r1 rs1))
          (h2 r2 (List.mem_cons_self r2 rs2))
      · exact ih rs2 (List.all_eq_true.mpr fun x hx => h1 x (List.mem_cons_of_mem r1 hx))
          (List.all_eq_true.mpr fun x hx => h2 x (List.mem_cons_of_mem r2 hx))

theorem gridInv_foldl_applyUpdate (l : List CellUpdate) (acc : Grid × Nat)
    (hacc : gridInv acc.1 = true)
    (h : ∀ u ∈ l, u.heartbeat = false → cellInv u.state = true) :
    gridInv (l.foldl applyUpdate acc).1 = true := by
  induction l generalizing acc with
  | nil => exact hacc
  | cons u rest ih =>
    simp only [List.foldl_cons]
    refine ih (applyUpdate acc u) ?_
      (fun v hv => h v (List.mem_cons_of_mem u hv))
    simp only [applyUpdate]
    cases hb : u.heartbeat with
    | true => simpa using hacc
    | false =>
      simpa using gridInv_setCell acc.1 u.row u.col u.state hacc
        (h u (List.mem_cons_self u rest) hb)

theorem find?_congr {α : Type} (l : List α) (p q : α → Bool)
    (h : ∀ a ∈ l, p a = q a) : l.find? p = l.find? q := by
  induction l with
  | nil => rfl
  | cons a t ih =>
    rw [List.find?_cons, List.find?_cons, h a (List.mem_cons_self a t)]
    cases q a with
    | true => rfl
    | false => exact ih fun x hx => h x (List.mem_cons_of_mem a hx)

theorem mem_getAliveNeighborColors (players : List Player) (g : Grid)
    (row col : Nat) (c : String)
    (hc : c ∈ getAliveNeighborColors players g row col) :
    ∃ p ∈ players, p.color = c := by
  simp only [getAliveNeighborColors, List.mem_filterMap] at hc
  obtain ⟨o, _, ho⟩ := hc
  split at ho
  · split at ho
    · split at ho
      · rename_i oid _
        rcases Option.map_eq_some'.mp ho with ⟨p, hp, hpc⟩
        exact ⟨p, List.mem_of_find?_eq_some hp, hpc⟩
      · cases ho
    · cases ho
  · cases ho

theorem hostCount_updateFirstById (pid n : String) (now : Int)
    (l : List Player) : hostCount (updateFirstById pid n now l) = hostCount l := by
  induction l with
  | nil => rfl
  | cons p rest ih =>
    simp only [updateFirstById]
    split
    · simp [hostCount, List.countP_cons]
    · simp only [hostCount, List.countP_cons] at *
      rw [ih]

theorem length_updateFirstById (pid n : String) (now : Int) (l : List Player) :
    (updateFirstById pid n now l).length = l.length := by
  induction l with
  | nil => rfl
  | cons p rest ih =>
    simp only [updateFirstById]
    split
    · simp
    · simp [ih]

theorem removeFirstById_count (pid : String) (l : List Player) (p : Player)
    (rest : List Player) (h : removeFirstById pid l = (some p, rest)) :
    hostCount l = hostCount rest + (if p.isHost then 1 else 0) := by
  induction l generalizing rest with
  | nil => simp [removeFirstById] at h
  | cons q t ih =>
    by_cases hq : q.id = pid
    · simp only [removeFirstById, if_pos hq, Prod.mk.injEq] at h
      obtain ⟨h1, h2⟩ := h
      injection h1 with h1
      subst h1
      subst h2
      simp [hostCount, List.countP_cons]
    · simp only [removeFirstById, if_neg hq, Prod.mk.injEq] at h
      obtain ⟨h1, h2⟩ := h
      subst h2
      have hpair : removeFirstById pid t = (some p, (removeFirstById pid t).2) := by
        rw [← h1]
      have hrec := ih (removeFirstById pid t).2 hpair
      simp only [hostCount, List.countP_cons] at *
      omega

theorem hostCount_setHeadHost_cons (q : Player) (t : List Player) :
    hostCount (setHeadHost (q :: t)) = 1 + hostCount t := by
  simp [setHeadHost, hostCount, List.countP_cons]
  omega

theorem joinGameRoom_ok_players (room : GameRoom) (n pid c : String)
    (now : Int) (lim : Nat) (r' : GameRoom)
    (h : joinGameRoom (some room) n pid c now lim = Except.ok r') :
    r'.players = room.players ∨
    r'.players = updateFirstById pid n now room.players ∨
    r'.players = room.players ++
      [{ id := pid, name := n, color := c, isHost := false,
         status := PlayerStatus.active, lastStatusChange := now }] := by
  simp only [joinGameRoom] at h
  split at h
  · split at h
    · split at h
      · cases h
        right; left; rfl
      · exact Except.noConfusion h
    · cases h
      left; rfl
  · split at h
    · exact Except.noConfusion h
    · split at h
      · cases h
        right; right; rfl
      · exact Except.noConfusion h

theorem hostCount_applyOp_join (room : GameRoom) (n pid c : String)
    (now : Int) (lim : Nat) :
    hostCount (applyOp room (RoomOp.join n pid c now lim)).players
      = hostCount room.players := by
  simp only [applyOp]
  split
  · rename_i r' hr'
    rcases joinGameRoom_ok_players room n pid c now lim r' hr' with h | h | h <;>
      rw [h]
    · rw [hostCount_updateFirstById]
    · simp [hostCount, List.countP_append]
  · rfl

theorem applyOp_leave_players (room : GameRoom) (pid : String) (now : Int) :
    (applyOp room (RoomOp.leave pid now)).players = room.players ∨
    ∃ p rest, removeFirstById pid room.players = (some p, rest) ∧
      (applyOp room (RoomOp.leave pid now)).players =
        (if p.isHost ∧ rest ≠ [] then setHeadHost rest else rest) := by
  rcases hrem : removeFirstById pid room.players with ⟨op, rest⟩
  cases op with
  | none =>
    left
    simp only [applyOp, removePlayerFromRoom, hrem]
  | some p =>
    right
    refine ⟨p, rest, rfl, ?_⟩
    simp only [applyOp, removePlayerFromRoom, hrem, saveGameRoom]

theorem hostCount_applyOp_leave (room : GameRoom) (pid : String) (now : Int)
    (hle : hostCount room.players ≤ 1) :
    hostCount (applyOp room (RoomOp.leave pid now)).players ≤ 1 ∧
    ((applyOp room (RoomOp.leave pid now)).players ≠ [] →
      hostCount room.players = 1 →
      hostCount (applyOp room (RoomOp.leave pid now)).players = 1) := by
  rcases applyOp_leave_players room pid now with h | ⟨p, rest, hrem, h⟩
  · rw [h]
    exact ⟨hle, fun _ h1 => h1⟩
  · have hcount := removeFirstById_count pid room.players p rest hrem
    rw [h]
    by_cases hc : p.isHost ∧ rest ≠ []
    · rw [if_pos hc]
      obtain ⟨hph, hrne⟩ := hc
      cases rest with
      | nil => exact absurd rfl hrne
      | cons q t =>
        rw [hostCount_setHeadHost_cons]
        simp only [hph, if_true] at hcount
        have hq : hostCount (q :: t) = hostCount t + (if q.isHost then 1 else 0) := by
          simp [hostCount, List.countP_cons]
        constructor
        · split at hq <;> omega
        · intro _ h1
          split at hq <;> omega
    · rw [if_neg hc]
      constructor
      · split at hcount <;> omega
      · intro hne h1
        rw [Decidable.not_and_iff_or_not] at hc
        rcases hc with hph | hrne
        · rw [Bool.not_eq_true] at hph
          simp only [hph, Bool.false_eq_true, if_false] at hcount
          omega
        · rw [not_not] at hrne
          subst hrne
          exact absurd rfl hne

theorem hostCount_applyOp_le (room : GameRoom) (op : RoomOp)
    (h : hostCount room.players ≤ 1) : hostCount (applyOp room op).players ≤ 1 := by
  cases op with
  | join n pid c now lim =>
    rw [hostCount_applyOp_join]
    exact h
  | leave pid now => exact (hostCount_applyOp_leave room pid now h).1

theorem hostCount_applyOp_eq (room : GameRoom) (op : RoomOp)
    (h : hostCount room.players = 1)
    (hne : (applyOp room op).players ≠ []) :
    hostCount (applyOp room op).players = 1 := by
  cases op with
  | join n pid c now lim =>
    rw [hostCount_applyOp_join]
    exact h
  | leave pid now =>
    exact (hostCount_applyOp_leave room pid now (le_of_eq h)).2 hne h

theorem hostCount_runOps_le (init : GameRoom) (ops : List RoomOp)
    (h : hostCount init.players ≤ 1) : hostCount (runOps init ops).players ≤ 1 := by
  induction ops generalizing init with
  | nil => exact h
  | cons op rest ih => exact ih (applyOp init op) (hostCount_applyOp_le init op h)

theorem hostCount_runOps_eq (init : GameRoom) (ops : List RoomOp)
    (h : hostCount init.players = 1)
    (hne : ∀ k, k ≤ ops.length → ((ops.take k).foldl applyOp init).players ≠ []) :
    hostCount (runOps init ops).players = 1 := by
  induction ops generalizing init with
  | nil => exact h
  | cons op rest ih =>
    have h1 : (applyOp init op).players ≠ [] := by
      have := hne 1 (by simp)
      simpa using this
    refine ih (applyOp init op) (hostCount_applyOp_eq init op h h1) ?_
    intro k hk
    have := hne (k + 1) (by simpa using Nat.succ_le_succ hk)
    simpa [List.take_succ_cons] using this

theorem getAverageColor_spec (players : List Player) (colors : List String)
    (hne : colors ≠ [])
    (hwf : ∀ c ∈ colors, isWellFormedColor c = true) :
    getAverageColor players colors =
      (specAverageHex colors,
        (players.find? (fun p => toUpperStr p.color == specAverageHex colors)).map
          (fun p => p.id)) := by
  have h1 : ∀ i : Nat,
      colors.map (fun c => if isWellFormedColor c then hexPairAt c i else 0)
        = colors.map (fun c => hexPairAt c i) :=
    fun i => List.map_congr_left (fun c hc => by rw [hwf c hc]; simp)
  simp only [getAverageColor, if_neg hne, specAverageHex, h1 1, h1 3, h1 5]

theorem processUpdates_some_eq (room : Option GameRoom)
    (pending : List PendingBatch) (s s' : GameState) (now : Int)
    (h : processUpdates room pending (some s) now = some s') :
    s' = { grid := mergeGrids s.grid (flushFold pending s).1,
           generation := (flushFold pending s).2,
           lastUpdated := now } := by
  simp only [processUpdates] at h
  split at h
  · simp at h
  · split at h
    · simp at h
    · rw [foldl_batches_eq_flat] at h
      injection h with h
      subst h
      rfl

/-! ### Claims -/

/-- Claim C1: the claim says that when two updates target the same cell with
origination timestamps t1 < t2 and are enqueued in reverse order (t2's batch
first) within one debounce window, the flush flattens the batches, sorts by
origination timestamp, and persists t2's state.  Evaluating the embedded
flush at exactly that input shows the code persists t1's state instead: the
sort at line 118 orders the pending *batches* by their server arrival
timestamps (a no-op, since arrival stamps are non-decreasing) and the
updates' own `timestamp` fields are never consulted, so the last-arrived
update wins. -/
theorem C1_arrival_order_wins :
    u_t1.timestamp < u_t2.timestamp ∧
    u_t1.state ≠ u_t2.state ∧
    (processUpdates (some room1) pendingC1 (some st0) 200).map
      (fun s => getCell s.grid 0 0) = some u_t1.state :=
  ⟨by decide, by decide, by decide⟩

/-- Claim C2: along merge flushes and resets of a room's persisted game
state, the generation never decreases; a successful merge sets it to the
maximum of the current persisted generation and every queued update's
carried generation (it equals one of them and bounds them all), and a reset
sets it to exactly 0. -/
theorem C2_generation_monotonic (st : Option GameState) (room : Option GameRoom)
    (pending : List PendingBatch) (now now2 : Int) :
    genOf st ≤ genOf (stepState st (MergeEvent.flush room pending now)) ∧
    genOf (stepState st (MergeEvent.reset now2)) = 0 ∧
    (∀ s s', st = some s →
      processUpdates room pending st now = some s' →
      s.generation ≤ s'.generation ∧
      (∀ b ∈ pending, ∀ u ∈ b.updates, u.generation ≤ s'.generation) ∧
      (s'.generation = s.generation ∨
        ∃ b ∈ pending, ∃ u ∈ b.updates, s'.generation = u.generation)) := by
  refine ⟨?_, ?_, ?_⟩
  · cases st with
    | none =>
      have hnone : processUpdates room pending none now = none := by
        simp only [processUpdates]
        split
        · rfl
        · cases room <;> rfl
      simp [stepState, hnone, genOf]
    | some s =>
      cases hp : processUpdates room pending (some s) now with
      | none => simp [stepState, hp, genOf]
      | some s' =>
        have he := processUpdates_some_eq room pending s s' now hp
        simp only [stepState, hp, genOf]
        rw [he]
        exact le_foldl_applyUpdate
          ((sortBatches pending).flatMap (fun b => b.updates)) (s.grid, s.generation)
  · cases st <;> rfl
  · intro s s' hst hrun
    subst hst
    have he := processUpdates_some_eq room pending s s' now hrun
    refine ⟨?_, ?_, ?_⟩
    · rw [he]
      exact le_foldl_applyUpdate
        ((sortBatches pending).flatMap (fun b => b.updates)) (s.grid, s.generation)
    · intro b hb u hu
      rw [he]
      refine mem_le_foldl_applyUpdate
        ((sortBatches pending).flatMap (fun b => b.updates)) (s.grid, s.generation) u ?_
      rw [List.mem_flatMap]
      exact ⟨b, (mem_sortBatches b pending).mpr hb, hu⟩
    · rcases foldl_applyUpdate_gen_cases
        ((sortBatches pending).flatMap (fun b => b.updates))
        (s.grid, s.generation) with hc | ⟨u, hu, hc⟩
      · left
        rw [he]
        exact hc
      · right
        rw [List.mem_flatMap] at hu
        obtain ⟨b, hb, hub⟩ := hu
        refine ⟨b, (mem_sortBatches b pending).mp hb, u, hub, ?_⟩
        rw [he]
        exact hc

/-- Witness for C2 at a concrete flush: the flush of `pendingC1` over the
generation-0 state persists generation 1, which bounds every carried
generation and equals one of them. -/
theorem C2_generation_monotonic_witness :
    st0.generation ≤ resC2.generation ∧
    (∀ b ∈ pendingC1, ∀ u ∈ b.updates, u.generation ≤ resC2.generation) ∧
    (resC2.generation = st0.generation ∨
      ∃ b ∈ pendingC1, ∃ u ∈ b.updates, resC2.generation = u.generation) :=
  (C2_generation_monotonic (some st0) (some room1) pendingC1 200 300).2.2
    st0 resC2 rfl (by decide)

/-- Claim C3: a flush whose queued updates are all heartbeat-flagged leaves
every cell of the persisted grid unchanged (so every `isAlive`, `ownerId`
and `color` is untouched), and moves the persisted generation to the carried
generation whenever that exceeds the current one (with several heartbeats,
to their maximum; it never regresses). -/
theorem C3_heartbeat_noop (room : Option GameRoom) (pending : List PendingBatch)
    (s s' : GameState) (now : Int)
    (hhb : ∀ b ∈ pending, ∀ u ∈ b.updates, u.heartbeat = true)
    (hrun : processUpdates room pending (some s) now = some s') :
    s'.grid = s.grid ∧ s.generation ≤ s'.generation ∧
    (∀ b ∈ pending, ∀ u ∈ b.updates, u.generation ≤ s'.generation) ∧
    (s'.generation = s.generation ∨
      ∃ b ∈ pending, ∃ u ∈ b.updates, s'.generation = u.generation) := by
  have he := processUpdates_some_eq room pending s s' now hrun
  have hflat : ∀ u ∈ (sortBatches pending).flatMap (fun b => b.updates),
      u.heartbeat = true := by
    intro u hu
    rw [List.mem_flatMap] at hu
    obtain ⟨b, hb, hub⟩ := hu
    exact hhb b ((mem_sortBatches b pending).mp hb) u hub
  refine ⟨?_, ?_, ?_, ?_⟩
  · rw [he]
    show mergeGrids s.grid (flushFold pending s).1 = s.grid
    have hg : (flushFold pending s).1 = s.grid :=
      foldl_applyUpdate_grid_heartbeats _ _ hflat
    rw [hg, mergeGrids_self]
  · rw [he]
    exact le_foldl_applyUpdate
      ((sortBatches pending).flatMap (fun b => b.updates)) (s.grid, s.generation)
  · intro b hb u hu
    rw [he]
    refine mem_le_foldl_applyUpdate
      ((sortBatches pending).flatMap (fun b => b.updates)) (s.grid, s.generation) u ?_
    rw [List.mem_flatMap]
    exact ⟨b, (mem_sortBatches b pending).mpr hb, hu⟩
  · rcases foldl_applyUpdate_gen_cases
      ((sortBatches pending).flatMap (fun b => b.updates))
      (s.grid, s.generation) with hc | ⟨u, hu, hc⟩
    · left
      rw [he]
      exact hc
    · right
      rw [List.mem_flatMap] at hu
      obtain ⟨b, hb, hub⟩ := hu
      refine ⟨b, (mem_sortBatches b pending).mp hb, u, hub, ?_⟩
      rw [he]
      exact hc

/-- Witness for C3: a single heartbeat carrying generation 7 over the
generation-0 state leaves the grid identical and persists generation 7. -/
theorem C3_heartbeat_noop_witness :
    resHB.grid = st0.grid ∧ st0.generation ≤ resHB.generation ∧
    resHB.generation = 7 :=
  let h := C3_heartbeat_noop (some room1) pendingHB st0 resHB 30
    (by decide) (by decide)
  ⟨h.1, h.2.1, rfl⟩

theorem applyCellRules_cases (players : List Player) (g : Grid) (row col : Nat) :
    (applyCellRules players g row col).willLive = true ∨
    applyCellRules players g row col = { willLive := false } := by
  simp only [applyCellRules]
  split
  · left
    rfl
  · split
    · left
      rfl
    · right
      rfl

theorem cellInv_tickCellState (players : List Player) (g : Grid) (row col : Nat) :
    cellInv (tickCellState players g row col) = true := by
  rcases applyCellRules_cases players g row col with h | h
  · simp [tickCellState, cellInv, h]
  · simp [tickCellState, cellInv, h]

theorem gridInv_nextGeneration (players : List Player) (g : Grid)
    (generation : Nat) (uid rid : String) (t : Int) :
    gridInv (nextGeneration players g generation uid rid t).nextGrid = true := by
  simp only [nextGeneration]
  rw [gridInv, List.all_eq_true]
  intro r hr
  rw [List.mem_map] at hr
  obtain ⟨row, _, hrow⟩ := hr
  subst hrow
  rw [List.all_eq_true]
  intro x hx
  rw [List.mem_map] at hx
  obtain ⟨col, _, hcol⟩ := hx
  subst hcol
  exact cellInv_tickCellState players g row col

/-- Counterexample to claim C4 as stated: the cell-state schema places no
cross-field constraint, so a schema-valid update can carry a dead state with
an owner and a color; flushing it over an invariant-satisfying grid persists
a grid violating the invariant. -/
theorem C4_counterexample :
    cellUpdateSchemaValid badUpdate = true ∧
    gridInv st0.grid = true ∧
    (processUpdates (some room1) (queueUpdates [] [badUpdate] 10) (some st0) 20).map
      (fun s => gridInv s.grid) = some false :=
  ⟨by decide, by decide, by decide⟩

/-- Claim C4 (amended): a merge flush preserves the dead-cells-unowned
invariant provided every queued non-heartbeat update's cell state itself
satisfies it (the schema does not enforce that, see the counterexample), and
one simulation tick always produces a grid satisfying the invariant. -/
theorem C4_dead_cells_unowned (room : Option GameRoom)
    (pending : List PendingBatch) (s s' : GameState) (now : Int)
    (hg : gridInv s.grid = true)
    (hupd : ∀ b ∈ pending, ∀ u ∈ b.updates,
      u.heartbeat = false → cellInv u.state = true)
    (hrun : processUpdates room pending (some s) now = some s') :
    gridInv s'.grid = true ∧
    (∀ (players : List Player) (g : Grid) (generation : Nat)
      (uid rid : String) (t : Int),
      gridInv (nextGeneration players g generation uid rid t).nextGrid = true) := by
  refine ⟨?_, fun players g generation uid rid t =>
    gridInv_nextGeneration players g generation uid rid t⟩
  have he := processUpdates_some_eq room pending s s' now hrun
  rw [he]
  show gridInv (mergeGrids s.grid (flushFold pending s).1) = true
  have hflat : ∀ u ∈ (sortBatches pending).flatMap (fun b => b.updates),
      u.heartbeat = false → cellInv u.state = true := by
    intro u hu
    rw [List.mem_flatMap] at hu
    obtain ⟨b, hb, hub⟩ := hu
    exact hupd b ((mem_sortBatches b pending).mp hb) u hub
  have hfold : gridInv (flushFold pending s).1 = true :=
    gridInv_foldl_applyUpdate
      ((sortBatches pending).flatMap (fun b => b.updates))
      (s.grid, s.generation) hg hflat
  exact gridInv_mergeGrids s.grid (flushFold pending s).1 hg hfold

/-- Witness for C4 (amended): flushing an ordinary alive-with-owner update
over the all-dead grid keeps the invariant. -/
theorem C4_dead_cells_unowned_witness : gridInv resOK.grid = true :=
  (C4_dead_cells_unowned (some room1) pendingOK st0 resOK 20
    (by decide) (by decide) (by decide)).1

/-- Counterexample to claim C5 as stated: joining a started, non-full room
with a never-member identifier succeeds, although the claim requires such a
join to fail; no started-game guard exists in the server join path (the only
started-game gate lives in the client UI flow). -/
theorem C5_counterexample :
    roomStarted.hasStarted = true ∧
    (∀ p ∈ roomStarted.players, p.id ≠ "bobbobbob") ∧
    roomStarted.players.length < configPlayerLimit ∧
    (joinGameRoom (some roomStarted) "Bob" "bobbobbob" "#00FF00" 5
      configPlayerLimit).isOk = true :=
  ⟨rfl, by decide, by decide, by decide⟩

theorem joinGameRoom_eq_found (room : GameRoom) (n pid c : String) (now : Int)
    (lim : Nat) (e : Player)
    (hf : room.players.find? (fun p => p.id == pid) = some e) :
    joinGameRoom (some room) n pid c now lim =
      (if e.name ≠ n ∨ e.status ≠ PlayerStatus.active then
        (if gameRoomSchemaValid { room with
            players := updateFirstById pid n now room.players } then
          Except.ok (saveGameRoom { room with
            players := updateFirstById pid n now room.players } now)
        else Except.error "Invalid game room data")
      else Except.ok room) := by
  simp only [joinGameRoom, hf]

theorem joinGameRoom_eq_notfound (room : GameRoom) (n pid c : String)
    (now : Int) (lim : Nat)
    (hf : room.players.find? (fun p => p.id == pid) = none) :
    joinGameRoom (some room) n pid c now lim =
      (if room.players.length ≥ lim then Except.error "Game room is full"
      else if gameRoomSchemaValid { room with
          players := room.players ++
            [{ id := pid, name := n, color := c, isHost := false,
               status := PlayerStatus.active, lastStatusChange := now }] } then
        Except.ok (saveGameRoom { room with
          players := room.players ++
            [{ id := pid, name := n, color := c, isHost := false,
               status := PlayerStatus.active, lastStatusChange := now }] } now)
      else Except.error "Invalid game room data") := by
  simp only [joinGameRoom, hf]

theorem playersValid_updateFirstById (pid n : String) (now : Int)
    (l : List Player) (hl : l.all playerSchemaValid = true)
    (hn : playerNameSchemaOk n = true) :
    (updateFirstById pid n now l).all playerSchemaValid = true := by
  induction l with
  | nil => rfl
  | cons p rest ih =>
    rw [List.all_cons, Bool.and_eq_true] at hl
    simp only [updateFirstById]
    split
    · rw [List.all_cons, Bool.and_eq_true]
      refine ⟨?_, hl.2⟩
      have hp := hl.1
      simp only [playerSchemaValid, Bool.and_eq_true] at hp ⊢
      exact ⟨⟨hp.1.1, hn⟩, hp.2⟩
    · rw [List.all_cons, Bool.and_eq_true]
      exact ⟨hl.1, ih hl.2⟩

theorem gameRoomSchemaValid_updateFirstById (room : GameRoom)
    (pid n : String) (now : Int)
    (hroom : gameRoomSchemaValid room = true)
    (hn : playerNameSchemaOk n = true) :
    gameRoomSchemaValid { room with
      players := updateFirstById pid n now room.players } = true := by
  simp only [gameRoomSchemaValid, Bool.and_eq_true] at hroom ⊢
  exact ⟨hroom.1, playersValid_updateFirstById pid n now room.players hroom.2 hn⟩

theorem gameRoomSchemaValid_append (room : GameRoom) (p : Player)
    (hroom : gameRoomSchemaValid room = true)
    (hp : playerSchemaValid p = true) :
    gameRoomSchemaValid { room with players := room.players ++ [p] } = true := by
  simp only [gameRoomSchemaValid, Bool.and_eq_true] at hroom ⊢
  refine ⟨hroom.1, ?_⟩
  rw [List.all_append]
  simp [hroom.2, hp]

/-- Claim C5 (amended): for a schema-valid stored room record and a join
request whose name, identifier and freshly drawn color pass the schemas
(the domain every request that reaches a successful save lives in —
otherwise `saveGameRoom`'s zod re-validation throws), the server-side join
fails exactly when the room does not exist, or the joining identifier is
not a member and the room is at capacity; a join by an identifier already
in the player list always succeeds without growing the list, for every
room size.  The claim's started-game condition is not part of the join
authorization. -/
theorem C5_join_characterization (room : Option GameRoom)
    (playerName playerId newColor : String) (now : Int) (playerLimit : Nat)
    (hroomv : ∀ r, room = some r → gameRoomSchemaValid r = true)
    (hname : playerNameSchemaOk playerName = true)
    (hid : isCuid playerId = true)
    (hcolor : isHexColorStr newColor = true) :
    ((∃ msg, joinGameRoom room playerName playerId newColor now playerLimit
        = Except.error msg) ↔
      room = none ∨ ∃ r, room = some r ∧ (∀ p ∈ r.players, p.id ≠ playerId) ∧
        playerLimit ≤ r.players.length) ∧
    (∀ r, room = some r → ∀ p ∈ r.players, p.id = playerId →
      ∃ r', joinGameRoom room playerName playerId newColor now playerLimit
          = Except.ok r' ∧
        r'.players.length = r.players.length) := by
  have hnewp : playerSchemaValid
      { id := playerId, name := playerName, color := newColor, isHost := false,
        status := PlayerStatus.active, lastStatusChange := now } = true := by
    simp only [playerSchemaValid, Bool.and_eq_true]
    exact ⟨⟨hid, hname⟩, hcolor⟩
  constructor
  · cases room with
    | none =>
      constructor
      · intro _
        exact Or.inl rfl
      · intro _
        exact ⟨"Game room not found", rfl⟩
    | some r =>
      have hrv := hroomv r rfl
      cases hf : r.players.find? (fun p => p.id == playerId) with
      | some e =>
        have hmem := List.mem_of_find?_eq_some hf
        have hid2 : e.id = playerId := by simpa using List.find?_some hf
        rw [joinGameRoom_eq_found r playerName playerId newColor now
          playerLimit e hf,
          if_pos (gameRoomSchemaValid_updateFirstById r playerId playerName
            now hrv hname)]
        constructor
        · rintro ⟨msg, hmsg⟩
          split at hmsg <;> exact Except.noConfusion hmsg
        · rintro (h | ⟨r2, hr2, hnot, _⟩)
          · simp at h
          · injection hr2 with hr2
            subst hr2
            exact absurd hid2 (hnot e hmem)
      | none =>
        rw [joinGameRoom_eq_notfound r playerName playerId newColor now
          playerLimit hf,
          if_pos (gameRoomSchemaValid_append r _ hrv hnewp)]
        constructor
        · rintro ⟨msg, hmsg⟩
          split at hmsg
          · rename_i hge
            right
            refine ⟨r, rfl, ?_, ?_⟩
            · rw [List.find?_eq_none] at hf
              intro p hp
              simpa using hf p hp
            · omega
          · exact Except.noConfusion hmsg
        · rintro (h | ⟨r2, hr2, _, hlen⟩)
          · simp at h
          · injection hr2 with hr2
            subst hr2
            rw [if_pos (show r.players.length ≥ playerLimit from hlen)]
            exact ⟨"Game room is full", rfl⟩
  · intro r hr p hp hpid
    subst hr
    have hrv := hroomv r rfl
    cases hf : r.players.find? (fun q => q.id == playerId) with
    | none =>
      rw [List.find?_eq_none] at hf
      exact absurd (by simpa using hpid) (by simpa using hf p hp)
    | some e =>
      rw [joinGameRoom_eq_found r playerName playerId newColor now
        playerLimit e hf,
        if_pos (gameRoomSchemaValid_updateFirstById r playerId playerName
          now hrv hname)]
      by_cases hcond : e.name ≠ playerName ∨ e.status ≠ PlayerStatus.active
      · rw [if_pos hcond]
        exact ⟨_, rfl, by simp [saveGameRoom, length_updateFirstById]⟩
      · rw [if_neg hcond]
        exact ⟨_, rfl, rfl⟩

/-- Witness for C5 (amended): the host re-joining the started one-player
room (schema-valid record, valid name, cuid id, hex color) succeeds
without growing the player list. -/
theorem C5_join_characterization_witness :
    ∃ r', joinGameRoom (some roomStarted) "Alice" "alicealice" "#123456" 9
        configPlayerLimit = Except.ok r' ∧
      r'.players.length = roomStarted.players.length :=
  (C5_join_characterization (some roomStarted) "Alice" "alicealice" "#123456"
    9 configPlayerLimit
    (by intro r hr; injection hr with hr; subst hr; decide)
    (by decide) (by decide) (by decide)).2
    roomStarted rfl playerA (by decide) (by decide)

/-- Counterexample to claim C6 as stated: a non-reset update request from
the inactive guest is forwarded to the batcher, not rejected — the
`game:update` handler never consults the caller's presence status. -/
theorem C6_counterexample :
    (roomInactive.players.find? (fun p => p.id == "bobbobbob")).map
      (fun p => p.status) = some PlayerStatus.inactive ∧
    handleGameUpdate (some roomInactive) "bobbobbob" [u_t1] false (some st0) [] 7
      = UpdateAction.enqueued (queueUpdates [] [u_t1] 7) :=
  ⟨by decide, by decide⟩

/-- Claim C6 (amended): a non-reset update request is silently dropped
exactly when the room does not exist or the caller is not a member; a
member's updates are always forwarded to the batcher regardless of the
member's presence status (inactive members included). -/
theorem C6_update_no_status_check (room : Option GameRoom) (userId : String)
    (updates : List CellUpdate) (st : Option GameState)
    (pending : List PendingBatch) (now : Int) :
    (∀ r, room = some r → ∀ p ∈ r.players, p.id = userId →
      handleGameUpdate room userId updates false st pending now
        = UpdateAction.enqueued (queueUpdates pending updates now)) ∧
    ((room = none ∨ ∃ r, room = some r ∧ ∀ p ∈ r.players, p.id ≠ userId) →
      handleGameUpdate room userId updates false st pending now
        = UpdateAction.ignored) := by
  constructor
  · intro r hr p hp hpid
    subst hr
    simp only [handleGameUpdate]
    cases hf : r.players.find? (fun q => q.id == userId) with
    | none =>
      rw [List.find?_eq_none] at hf
      exact absurd (by simpa using hpid) (by simpa using hf p hp)
    | some e => rfl
  · rintro (h | ⟨r, hr, hnot⟩)
    · subst h
      rfl
    · subst hr
      simp only [handleGameUpdate]
      cases hf : r.players.find? (fun q => q.id == userId) with
      | none => rfl
      | some e =>
        have hmem := List.mem_of_find?_eq_some hf
        have hid : e.id = userId := by simpa using List.find?_some hf
        exact absurd hid (hnot e hmem)

/-- Witness for C6 (amended): the inactive guest's update is enqueued. -/
theorem C6_update_no_status_check_witness :
    handleGameUpdate (some roomInactive) "bobbobbob" [u_t2] false (some st0) [] 8
      = UpdateAction.enqueued (queueUpdates [] [u_t2] 8) :=
  (C6_update_no_status_check (some roomInactive) "bobbobbob" [u_t2]
    (some st0) [] 8).1 roomInactive rfl playerBInactive (by decide) (by decide)

theorem removePlayerFromRoom_eq_found (room : GameRoom) (pid : String)
    (now : Int) (p : Player) (rest : List Player)
    (hrem : removeFirstById pid room.players = (some p, rest)) :
    removePlayerFromRoom (some room) pid now =
      Except.ok (saveGameRoom { room with players :=
        (if p.isHost ∧ rest ≠ [] then setHeadHost rest else rest) } now) := by
  simp only [removePlayerFromRoom, hrem]

/-- Counterexample to claim C7 as stated: after the host leaves (emptying
the room, whose record persists in the store) and a new player joins the
empty room, the player list is non-empty yet contains no host —
`joinGameRoom` always appends with `isHost = false`, and no join path
assigns a host. -/
theorem C7_counterexample :
    (runOps roomC7 opsC7).players ≠ [] ∧
    hostCount (runOps roomC7 opsC7).players = 0 :=
  ⟨by decide, by decide⟩

/-- Claim C7 (amended): after any sequence of joins, explicit leaves and
disconnect-timeout removals starting from a freshly created room, at most
one player carries `isHost = true`; exactly one whenever the player list
never became empty along the sequence; and removing the host while players
remain reassigns the flag to the first remaining player.  The exactly-one
invariant fails only for a room whose player list was emptied by removals
and then re-joined (see the counterexample). -/
theorem C7_host_uniqueness (gameRoomId hostName hostId : String) (now : Int)
    (ops : List RoomOp) :
    hostCount (runOps (createGameRoom gameRoomId hostName hostId now) ops).players ≤ 1 ∧
    ((∀ k, k ≤ ops.length →
        ((ops.take k).foldl applyOp
          (createGameRoom gameRoomId hostName hostId now)).players ≠ []) →
      hostCount (runOps (createGameRoom gameRoomId hostName hostId now) ops).players = 1) ∧
    (∀ (r : GameRoom) (pid : String) (t : Int) (p : Player) (rest : List Player),
      hostCount r.players ≤ 1 →
      removeFirstById pid r.players = (some p, rest) →
      p.isHost = true → rest ≠ [] →
      removePlayerFromRoom (some r) pid t
        = Except.ok (saveGameRoom { r with players := setHeadHost rest } t) ∧
      hostCount (setHeadHost rest) = 1) := by
  refine ⟨?_, ?_, ?_⟩
  · exact hostCount_runOps_le _ ops (by simp [createGameRoom, hostCount])
  · intro hne
    exact hostCount_runOps_eq _ ops (by simp [createGameRoom, hostCount]) hne
  · intro r pid t p rest hle hrem hph hrne
    have hcount := removeFirstById_count pid r.players p rest hrem
    constructor
    · rw [removePlayerFromRoom_eq_found r pid t p rest hrem,
        if_pos (And.intro hph hrne)]
    · simp only [hph, if_true] at hcount
      cases rest with
      | nil => exact absurd rfl hrne
      | cons q t2 =>
        rw [hostCount_setHeadHost_cons]
        have hq : hostCount (q :: t2) = hostCount t2 + (if q.isHost then 1 else 0) := by
          simp [hostCount, List.countP_cons]
        split at hq <;> omega

/-- Witness for C7 (amended): the host creating a room and one guest
joining keeps exactly one host. -/
theorem C7_host_uniqueness_witness :
    hostCount (runOps (createGameRoom "roomroomroom" "Alice" "alicealice" 0)
      [RoomOp.join "Bob" "bobbobbob" "#00FF00" 2 8]).players = 1 :=
  (C7_host_uniqueness "roomroomroom" "Alice" "alicealice" 0
    [RoomOp.join "Bob" "bobbobbob" "#00FF00" 2 8]).2.1 (by decide)

/-- Claim C8: on a tick, a dead cell with exactly 3 live neighbours becomes
alive; its color is the component-wise average of the collected neighbour
colors — each RGB component summed and divided by the neighbour-color
count, rounded down — formatted as uppercase `#RRGGBB`
(`specAverageHex`), and the cell gets an owner exactly when that hex string
equals some current player's assigned color.  Player colors are assumed
schema-valid uppercase hex strings, as the palette assigns them. -/
theorem C8_reproduction_color (players : List Player) (g : Grid) (row col : Nat)
    (hdead : (getCell g row col).isAlive = false)
    (h3 : countLiveNeighbors g row col = 3)
    (hcne : getAliveNeighborColors players g row col ≠ [])
    (hpc : ∀ p ∈ players,
      isWellFormedColor p.color = true ∧ toUpperStr p.color = p.color) :
    applyCellRules players g row col =
      { willLive := true,
        newOwnerId := (players.find? (fun p =>
          p.color == specAverageHex (getAliveNeighborColors players g row col))).map
            (fun p => p.id),
        color := some (specAverageHex (getAliveNeighborColors players g row col)) } ∧
    (((players.find? (fun p =>
        p.color == specAverageHex (getAliveNeighborColors players g row col))).map
          (fun p => p.id)).isSome = true ↔
      ∃ p ∈ players,
        p.color = specAverageHex (getAliveNeighborColors players g row col)) := by
  have hwf : ∀ c ∈ getAliveNeighborColors players g row col,
      isWellFormedColor c = true := by
    intro c hc
    obtain ⟨p, hp, hpc2⟩ := mem_getAliveNeighborColors players g row col c hc
    rw [← hpc2]
    exact (hpc p hp).1
  have havg := getAverageColor_spec players
    (getAliveNeighborColors players g row col) hcne hwf
  have hfind : players.find? (fun p => toUpperStr p.color ==
        specAverageHex (getAliveNeighborColors players g row col))
      = players.find? (fun p => p.color ==
        specAverageHex (getAliveNeighborColors players g row col)) :=
    find?_congr players _ _ (fun p hp => by rw [(hpc p hp).2])
  constructor
  · simp only [applyCellRules]
    rw [if_neg (by simp [hdead]), if_pos (And.intro hdead h3)]
    rw [havg, hfind]
  · have hmap : ∀ (o : Option Player), (o.map (fun p => p.id)).isSome = o.isSome := by
      intro o
      cases o <;> rfl
    rw [hmap, List.find?_isSome]
    constructor
    · rintro ⟨p, hp, hpb⟩
      exact ⟨p, hp, by simpa using hpb⟩
    · rintro ⟨p, hp, hpe⟩
      exact ⟨p, hp, by simpa using hpe⟩

/-- Witness for C8 — the spec's concrete scenario: a dead cell at (1,1)
whose live neighbours are one red (`#FF0000`) and two green (`#00FF00`)
cells is born with color `#55AA00`, and no player owns that color, so it
has no owner. -/
theorem C8_reproduction_color_witness :
    applyCellRules [playerA, playerB] gridC8 1 1 =
      { willLive := true, newOwnerId := none, color := some "#55AA00" } :=
  ((C8_reproduction_color [playerA, playerB] gridC8 1 1 (by decide) (by decide)
    (by decide) (by decide)).1).trans (by decide)

/-- Claim C9: the claim says the submitted tick batch contains exactly the
changed cells at the new generation, plus a single heartbeat-flagged update
only when nothing changed.  Evaluating the embedded tick on a grid where
(1,1) is born while (0,0) survives unchanged shows the code appends the
trailing update unconditionally, flagged `isHeartbeat = false` whenever the
diff is non-empty: the batch carries a non-heartbeat all-dead write to cell
(0,0) although (0,0) did not change, and flushing that batch server-side
kills the surviving cell (0,0). -/
theorem C9_pseudo_heartbeat_clobbers :
    getCell tickC9.nextGrid 0 0 = getCell gridC9 0 0 ∧
    (getCell gridC9 0 0).isAlive = true ∧
    tickC9.changed.all (fun u => !(u.row == 0 && u.col == 0)) = true ∧
    tickC9.submitted.any (fun u => u.row == 0 && u.col == 0 &&
      u.heartbeat == false && u.state == deadCell) = true ∧
    (processUpdates (some room1) (queueUpdates [] tickC9.submitted 60)
        (some stC9) 70).map (fun s => getCell s.grid 0 0) = some deadCell :=
  ⟨by decide, by decide, by decide, by decide, by decide⟩

/-- Claim C10: for equal-shape grids the store-level merge returns exactly
the incoming grid — `mergeGrids g1 g2 = g2` — hence every non-reset
`updateGameState` write persists precisely the caller-supplied grid, and no
differing cell of the previously persisted grid survives. -/
theorem C10_merge_is_overwrite (g1 g2 : Grid)
    (hshape : List.Forall₂ (fun r1 r2 => r1.length = r2.length) g1 g2) :
    mergeGrids g1 g2 = g2 ∧
    (∀ (cur : GameState) (gen : Option Nat) (now : Int), cur.grid = g1 →
      (updateGameState (some cur) g2 false gen now).grid = g2) := by
  have hm := mergeGrids_eq_right g1 g2 hshape
  refine ⟨hm, ?_⟩
  intro cur gen now hcur
  show mergeGrids cur.grid g2 = g2
  rw [hcur, hm]

/-- Witness for C10: merging the reproduction-scenario grid over the
all-dead grid yields exactly the incoming grid, also through
`updateGameState`. -/
theorem C10_merge_is_overwrite_witness :
    mergeGrids emptyGrid gridC8 = gridC8 ∧
    (updateGameState (some st0) gridC8 false (some 3) 9).grid = gridC8 :=
  let h := C10_merge_is_overwrite emptyGrid gridC8 (by decide)
  ⟨h.1, h.2 st0 (some 3) 9 rfl⟩

end GoL
